import Mathlib

/-!
Verification development for the actor runtime core and its satellite
packages (`log`, `registry`, `actors`).  Each Go function used by the
checked properties is translated into an executable Lean definition;
user-supplied callbacks (command handlers, reply processors, stream
producers/consumers, exit processors) are modelled as deterministic
oracles or as emitted events, since they are external to the runtime.
Machine integers are modelled as `Int`/`Nat`; Go `nil` errors are
`Option`; a Go runtime panic inside the registry stream helpers is
modelled as `Option.none` on the result.
-/

namespace ActorsModel

/-! ## Basic identifiers and errors -/

/-- Identity of an actor's service handle (`ActorService`); `0` stands for
the Go `nil` service. -/
abbrev ActorRef := Nat

/-- Error kinds defined and used by the core (`errors` package values).
`user n` stands for arbitrary user-defined errors. -/
inductive Err
  | actorDead
  | cancelled
  | offsetOutOfRange
  | wrongTypeRequested
  | badStream
  | notStreamReply
  | unsupportedSeverity
  | user (n : Nat)
  deriving DecidableEq, Repr

/-- Opaque command/message payload (`inspect.Inspectable`), with the
built-in `GetInfo` payload distinguished because the dispatcher
special-cases it. -/
inductive Payload
  | mk (n : Nat)
  | getInfo
  deriving DecidableEq, Repr

/-- Go `promiseId = {origin: Service, id: CommandId}`: the correlation key. -/
structure PromiseId where
  origin : ActorRef
  id : Nat
  deriving DecidableEq, Repr

/-- Go `commandMessage{promiseId, data}`. -/
structure CommandMsg where
  pid : PromiseId
  data : Payload
  deriving DecidableEq, Repr

/-- A reply payload (`reply.data`), which is either a plain value, `nil`,
the `GetInfo` introspection table, or an `errorReply{err}`. -/
inductive RVal
  | val (p : Payload)
  | nilReply
  | infoTable
  | errR (e : Option Err)
  deriving DecidableEq, Repr

/-- Go `linkType` constants: `linkLink`, `linkMonitor`, `linkDepend`,
`linkKill`. -/
inductive LinkType
  | link
  | monitor
  | depend
  | kill
  deriving DecidableEq, Repr

/-- Go `outputId{streamId, destination}` (producer-side stream key);
destination `0` stands for the Go zero value. -/
structure OutputId where
  sid : Nat
  destination : ActorRef
  deriving DecidableEq, Repr

/-- Go `sourceId{streamId, source}` (consumer-side stream key). -/
structure SourceId where
  sid : Nat
  source : ActorRef
  deriving DecidableEq, Repr

/-- Modelled from the spec: `outputId.IsValid` is not under `src/`; a
stream id is valid when both components are non-zero (stream counters
start from 1 and services are non-nil). -/
def OutputId.isValidB (o : OutputId) : Bool :=
  o.sid ≠ 0 && o.destination ≠ 0

/-- Go `streamRequest{id, data, maxLen}`; the data slot is opaque to the
runtime (`none` = nil slot). -/
structure StreamRequestMsg where
  id : OutputId
  slot : Option Nat
  maxLen : Nat
  deriving DecidableEq, Repr

/-- The runtime's internal message kinds, as discriminated by the
dispatcher's type switch in `processIncomingMessage`. -/
inductive Msg
  | command (cmd : CommandMsg)
  | reply (cid : Nat) (v : RVal)
  | preReply (cid : Nat) (proc : ActorRef)
  | quitM (e : Option Err)
  | closeM
  | cancelCmd (origin : ActorRef) (cid : Nat)
  | establishLink (source : ActorRef) (lt : LinkType)
  | notifyClose (dest : ActorRef) (e : Option Err)
  | streamCanSend (sid : Nat) (source : ActorRef)
  | streamRequest (r : StreamRequestMsg)
  | streamReply (id : SourceId) (data : Option Payload)
  | streamAck (id : OutputId)
  | upstreamStopped (id : SourceId) (e : Option Err)
  | downstreamStopped (id : OutputId) (e : Option Err)
  | closeStreamM (id : OutputId)
  | other (tok : Nat)
  deriving DecidableEq, Repr

/-- Observable effects of a processing step.  `enq` is the cross-actor
`enqueue`; the remaining constructors record invocations of
user-supplied callbacks, which are external code. -/
inductive Event
  | enq (dest : ActorRef) (m : Msg)
  | enqNil (m : Msg)
  | procProcess (tok : Nat) (v : RVal)
  | procError (tok : Nat) (e : Option Err)
  | cancelCalled (tok : Nat)
  | invalidateCalled
  | finishedService (peer : ActorRef) (e : Option Err)
  | messageHandled (tok : Nat)
  | inputClosed (sid : Nat) (e : Option Err)
  | inputDataReceived (sid : Nat)
  | inputProcessed (sid : Nat) (d : Option Payload)
  | inputRequestNext (sid : Nat)
  | outStreamClosed (oid : OutputId) (e : Option Err)
  | outAcknowledged (oid : OutputId)
  deriving DecidableEq, Repr

/-! ## Association-list maps (Go `map` types) -/

/-- Go map assignment `m[k] = v`: replace any existing binding. -/
def alInsert {κ α : Type} [DecidableEq κ] (k : κ) (v : α)
    (l : List (κ × α)) : List (κ × α) :=
  (k, v) :: l.filter (fun p => p.1 ≠ k)

/-- Go map lookup. -/
def alFind {κ α : Type} [DecidableEq κ] (k : κ)
    (l : List (κ × α)) : Option α :=
  (l.find? (fun p => p.1 = k)).map (·.2)

/-- Go `delete(m, k)`. -/
def alErase {κ α : Type} [DecidableEq κ] (k : κ)
    (l : List (κ × α)) : List (κ × α) :=
  l.filter (fun p => p.1 ≠ k)

/-- Go `_, ok := m[k]`. -/
def alContains {κ α : Type} [DecidableEq κ] (k : κ)
    (l : List (κ × α)) : Bool :=
  l.any (fun p => p.1 = k)

end ActorsModel

namespace RegistryModel

/-! ## `registry.infoStateChangeStream` -/

/-- Go `registry.Info{name, actor}`. -/
structure Info where
  name : String
  actor : ActorsModel.ActorRef
  deriving DecidableEq, Repr

/-- The slot (`inspect.Inspectable`) handed to `FillData`: a `*InfoArray`,
a `*Info`, or any other type. -/
inductive Slot
  | array (arr : List Info)
  | single (v : Info)
  | other
  deriving DecidableEq, Repr

/-- Go `infoStateChangeStream` state (the `names` map is kept as an
association list). -/
structure InfoStream where
  buffer : List Info
  names : List (String × ActorsModel.ActorRef)
  startOffset : Int
  isAnyoneListening : Bool
  deriving Repr

/-- Modelled from the spec: `actors.DefaultMaxLen` is not under `src/`;
its concrete value is irrelevant to every property proved here. -/
def DefaultMaxLen : Int := 65536

/-- Go `infoStateChangeStream.fillArray`.  Result: `none` models a Go
panic (negative `SetLength`); otherwise `(filled?, nextOffset)` where
`filled? = none` models the `nil, offset, nil` return. -/
def fillArray (i : InfoStream) (offset maxLen : Int) :
    Option (Option (List Info) × Int) :=
  let real0 : Int := (i.buffer.length : Int) - offset + i.startOffset
  let realLen : Int := if real0 > maxLen then maxLen else real0
  if realLen = 0 then some (none, offset)
  else if realLen < 0 then none
  else
    some (some ((i.buffer.drop (offset - i.startOffset).toNat).take realLen.toNat),
          offset + realLen)

/-- Go `infoStateChangeStream.FillData`.  Result `none` models a Go panic;
otherwise `(resultSlot?, nextOffset, err?)`. -/
def FillData (i : InfoStream) (data : Slot) (offset maxLen : Int) :
    Option (Option Slot × Int × Option ActorsModel.Err) :=
  if offset < i.startOffset then
    some (some data, offset, some .offsetOutOfRange)
  else
    let maxLen := if maxLen = 0 then DefaultMaxLen else maxLen
    match data with
    | .array _ =>
      match fillArray i offset maxLen with
      | none => none
      | some (none, off) => some (none, off, none)
      | some (some l, off) => some (some (.array l), off, none)
    | .single _ =>
      if (i.buffer.length : Int) < offset - i.startOffset then
        some (none, offset, some .offsetOutOfRange)
      else if offset - i.startOffset = (i.buffer.length : Int) then
        some (none, offset, none)
      else
        match i.buffer[(offset - i.startOffset).toNat]? with
        | some v => some (some (.single v), offset + 1, none)
        | none => none
    | .other =>
      match fillArray i offset maxLen with
      | none => none
      | some (none, off) => some (none, off, none)
      | some (some l, off) => some (some (.array l), off, none)

/-- Go `infoStateChangeStream.LastOffsetChanged`. -/
def LastOffsetChanged (i : InfoStream) (offset : Int) : InfoStream :=
  if (i.buffer.length : Int) / 2 ≥ offset - i.startOffset then
    { i with
      buffer := i.buffer.drop (offset - i.startOffset).toNat,
      startOffset := offset }
  else i

/-- Go `infoStateChangeStream.Add`. -/
def addName (i : InfoStream) (name : String) (actor : ActorsModel.ActorRef) :
    InfoStream :=
  let i := { i with names := ActorsModel.alInsert name actor i.names }
  if !i.isAnyoneListening then i
  else { i with buffer := i.buffer ++ [⟨name, actor⟩] }

end RegistryModel

namespace LogModel

/-! ## `log.Severity` -/

/-- The Go `Severity` is an `int`. -/
abbrev Severity := Int

def SeverityUnsupported : Severity := 0
def SeverityCrash : Severity := 1
def SeverityCritical : Severity := 2
def SeverityError : Severity := 3
def SeverityWarning : Severity := 4
def SeverityProcessing : Severity := 5
def SeverityStatus : Severity := 6
def SeverityInfo : Severity := 7
def SeverityDebug : Severity := 8

/-- The `SeverityStrings` map, as its (key, value) pairs. -/
def SeverityStringsList : List (Severity × String) :=
  [(SeverityCrash, "crash"), (SeverityCritical, "critical"),
   (SeverityError, "error"), (SeverityWarning, "warning"),
   (SeverityProcessing, "processing"), (SeverityStatus, "status"),
   (SeverityInfo, "info"), (SeverityDebug, "debug")]

/-- Go `SeverityStrings[s]` lookup. -/
def severityString (s : Severity) : Option String :=
  (SeverityStringsList.find? (fun p => p.1 = s)).map (·.2)

/-- Go `severityByString`, built by inverting `SeverityStrings`. -/
def severityByString (str : String) : Option Severity :=
  (SeverityStringsList.find? (fun p => p.2 = str)).map (·.1)

/-- Go `Severity.MarshalText`. -/
def MarshalText (s : Severity) : Except ActorsModel.Err String :=
  if s = SeverityUnsupported then .error .unsupportedSeverity
  else
    match severityString s with
    | none => .error .unsupportedSeverity
    | some result => .ok result

/-- Go `Severity.UnmarshalText`: returns the new value of `*s` and the
(always-nil) error. -/
def UnmarshalText (data : String) : Severity × Option ActorsModel.Err :=
  match severityByString data with
  | some key => (key, none)
  | none => (SeverityUnsupported, none)

/-- The eight supported severity constants (the declared constants other
than `SeverityUnsupported`). -/
def supportedSeverities : List Severity :=
  [SeverityCrash, SeverityCritical, SeverityError, SeverityWarning,
   SeverityProcessing, SeverityStatus, SeverityInfo, SeverityDebug]

end LogModel

namespace ActorsModel

/-! ## Actor state (`actors.Actor`) -/

/-- Go `actorState` constants. -/
inductive ActorState
  | running
  | quitting
  | closed
  deriving DecidableEq, Repr

/-- An outgoing-request reply processor (`interfaces.ReplyProcessor`).
`external` is a user-supplied processor, identified by a token;
`delegateProxy pid` is the closure installed by `Delegate` that
forwards the delegatee's reply to the original promise `pid`. -/
inductive RProc
  | external (tok : Nat)
  | delegateProxy (pid : PromiseId)
  deriving DecidableEq, Repr

/-- Modelled from the spec: an inflight entry is
`{reply processor, destination override}`; `inflightRequests.Add` is not
under `src/` and receives no destination, so the override starts unset
and is only filled in by `preReply`. -/
structure RequestInfo where
  destination : Option ActorRef
  processor : RProc
  deriving DecidableEq, Repr

/-- An active-promise cancel callback.  `external tok` is a
user-registered callback; `invalidateTok` is `Command.invalidate`
(registered by `PauseCommand`); `cancelInflight cid` is
`requestCanceller.Cancel` for the delegator's own sub-request
(registered by `Delegate`); `nilCB` models a Go nil callback. -/
inductive CancelCB
  | external (tok : Nat)
  | invalidateTok
  | cancelInflight (cid : Nat)
  | nilCB
  deriving DecidableEq, Repr

/-- Consumer-side stream state (`StreamInput` base plus the user
object, whose successive `Process` outcomes are a deterministic
oracle list; an exhausted list means success). -/
structure StreamInput where
  sid : Nat
  source : Option ActorRef
  procResults : List (Option Err)
  deriving DecidableEq, Repr

/-- Producer-side stream state (`StreamOutput` base plus the user
object, whose successive `FillData` outcomes are a deterministic
oracle list; an exhausted list means `(nil, nil)`). -/
structure StreamOut where
  outStreamId : OutputId
  closeError : Option Err
  isStreamClosing : Bool
  shouldCloseWhenActorCloses : Bool
  fillResults : List (Option Payload × Option Err)
  deriving DecidableEq, Repr

/-- Go `streamOutInfo{output, dataRequest}`. -/
structure StreamOutInfo where
  output : StreamOut
  dataRequest : StreamRequestMsg
  deriving DecidableEq, Repr

/-- A paused command (`resumedCommand`); `valid` models
`commandMessage.isValid` for a token that may have been invalidated. -/
structure ResumedCommand where
  cmd : CommandMsg
  filterIndex : Nat
  valid : Bool
  deriving DecidableEq, Repr

/-- The per-actor state of `actors.Actor`.  Processor tables of the
embedded `actorProcessors` are modelled from the spec ("no active
command/message processors registered") as registration counts, and the
finished-service handler as a presence flag. -/
structure ActorCore where
  refl : ActorRef
  commandProcessorCount : Nat
  messageProcessorCount : Nat
  hasFinishedServiceProcessor : Bool
  filterCount : Nat
  nextCommandId : Nat
  inflightRequests : List (Nat × RequestInfo)
  activePromises : List (PromiseId × CancelCB)
  incomingLinks : List (ActorRef × LinkType)
  outgoingLinks : List (ActorRef × LinkType)
  monitoringActors : List ActorRef
  currentStreamId : Nat
  streamInputs : List (Nat × StreamInput)
  streamOutputs : List (OutputId × StreamOutInfo)
  readyOutputs : List OutputId
  reissued : List ResumedCommand
  currentCommand : Option CommandMsg
  state : ActorState
  quitError : Option Err
  deriving Repr

/-- Modelled from the spec: the `Response` sum visited by
`actorResponseVisitor` — a plain value, a deferred-promise token, or a
delegation to another actor. -/
inductive ResponseKind
  | value (d : Payload)
  | promise (tok : Nat)
  | delegate (dest : ActorRef)
  deriving DecidableEq, Repr

/-- The environment supplying the effects of user code the runtime
invokes: the command-processor chain (`runCommandProcessor`, returning
a `Response` or an error for a payload and filter index) and the exit
processor (`runExitProcessor`, an arbitrary user action on the actor). -/
structure Env where
  runCommand : Payload → Nat → Option ResponseKind × Option Err
  runExit : ActorCore → ActorCore

end ActorsModel

namespace ActorsModel

/-! ## Actor operations (`actors.Actor` methods) -/

/-- Go `Actor.Quit`: store the error, move to Quitting, clear message
processors (`clearMessageProcessors` is modelled from the spec as
emptying the message-processor table). -/
def QuitA (e : Option Err) (a : ActorCore) : ActorCore :=
  { a with quitError := e, state := .quitting, messageProcessorCount := 0 }

/-- Go `commandMessage.reply` / `.replyWithError` (modelled from the spec:
"enqueue the reply to its origin"). -/
def commandReplyEvent (cmd : CommandMsg) (v : RVal) : Event :=
  .enq cmd.pid.origin (.reply cmd.pid.id v)

/-- Go `Actor.reply`: reply to the current command if it is still valid,
then invalidate it. -/
def replyA (a : ActorCore) (v : RVal) : ActorCore × List Event :=
  match a.currentCommand with
  | some cmd => ({ a with currentCommand := none }, [commandReplyEvent cmd v])
  | none => (a, [])

/-- Go `Actor.replyWithError`. -/
def replyWithErrorA (a : ActorCore) (e : Option Err) : ActorCore × List Event :=
  replyA a (.errR e)

/-- Invoke a reply processor's `Process`.  The `Delegate` proxy closure
replies the original promise with the delegatee's value and deletes the
active promise. -/
def runRProcProcess (p : RProc) (v : RVal) (a : ActorCore) :
    ActorCore × List Event :=
  match p with
  | .external tok => (a, [.procProcess tok v])
  | .delegateProxy pid =>
    ({ a with activePromises := alErase pid a.activePromises },
     [.enq pid.origin (.reply pid.id v)])

/-- Invoke a reply processor's `Error`. -/
def runRProcError (p : RProc) (e : Option Err) (a : ActorCore) :
    ActorCore × List Event :=
  match p with
  | .external tok => (a, [.procError tok e])
  | .delegateProxy pid =>
    ({ a with activePromises := alErase pid a.activePromises },
     [.enq pid.origin (.reply pid.id (.errR e))])

/-- Modelled from the spec ("look up inflight by id; invoke
`Process(data)`; remove entry"): `inflightRequests.Process`. -/
def inflightProcess (cid : Nat) (v : RVal) (a : ActorCore) :
    ActorCore × List Event :=
  match alFind cid a.inflightRequests with
  | none => (a, [])
  | some info =>
    runRProcProcess info.processor v
      { a with inflightRequests := alErase cid a.inflightRequests }

/-- Modelled from the spec ("look up inflight by id; invoke
`Error(err)`; remove entry"): `inflightRequests.Error`. -/
def inflightError (cid : Nat) (e : Option Err) (a : ActorCore) :
    ActorCore × List Event :=
  match alFind cid a.inflightRequests with
  | none => (a, [])
  | some info =>
    runRProcError info.processor e
      { a with inflightRequests := alErase cid a.inflightRequests }

/-- Go `Actor.cancelRequest`: enqueue a `cancelCommand` to the entry's
destination when one is set, then fail the reply processor with
`ErrCancelled`. -/
def cancelRequestA (cid : Nat) (info : RequestInfo) (a : ActorCore) :
    ActorCore × List Event :=
  let ev := match info.destination with
    | some d => [Event.enq d (.cancelCmd a.refl cid)]
    | none => []
  let r := runRProcError info.processor (some .cancelled) a
  (r.1, ev ++ r.2)

/-- Go `Actor.cancelRequestById`. -/
def cancelRequestByIdA (cid : Nat) (a : ActorCore) : ActorCore × List Event :=
  match alFind cid a.inflightRequests with
  | none => (a, [])
  | some info => cancelRequestA cid info a

/-- Modelled from the spec: `requestCanceller.Cancel` is not under
`src/`; per §4.5 it fires `cancelRequest` for its command id and removes
the inflight entry, which makes a second firing a no-op. -/
def requestCancellerCancel (cid : Nat) (a : ActorCore) :
    ActorCore × List Event :=
  match alFind cid a.inflightRequests with
  | none => (a, [])
  | some info =>
    let r := cancelRequestA cid info a
    ({ r.1 with inflightRequests := alErase cid r.1.inflightRequests }, r.2)

/-- Go `Actor.SendRequest`: returns the updated actor, the id held by the
returned canceller (`none` models the nil canceller of a Closed actor),
and the emitted enqueue. -/
def SendRequestA (dest : ActorRef) (req : Payload) (proc : RProc)
    (a : ActorCore) : ActorCore × Option Nat × List Event :=
  if a.state = .closed then (a, none, [])
  else
    ({ a with
        inflightRequests :=
          alInsert a.nextCommandId ⟨none, proc⟩ a.inflightRequests,
        nextCommandId := a.nextCommandId + 1 },
     some a.nextCommandId,
     [.enq dest (.command ⟨⟨a.refl, a.nextCommandId⟩, req⟩)])

/-- Invoke an active-promise cancel callback. -/
def runCancelCB (cb : CancelCB) (a : ActorCore) : ActorCore × List Event :=
  match cb with
  | .external tok => (a, [.cancelCalled tok])
  | .invalidateTok => (a, [.invalidateCalled])
  | .nilCB => (a, [])
  | .cancelInflight cid => requestCancellerCancel cid a

/-- Go `Actor.cancelCommandProcessingFromPromise`: run the cancel callback,
fail-reply the promise (`promiseId.replyWithError` enqueues an error
reply to the origin), and delete the entry. -/
def cancelPromiseA (pid : PromiseId) (e : Option Err) (a : ActorCore) :
    ActorCore × List Event :=
  match alFind pid a.activePromises with
  | none => (a, [])
  | some cb =>
    let r := runCancelCB cb a
    ({ r.1 with activePromises := alErase pid r.1.activePromises },
     r.2 ++ [.enq pid.origin (.reply pid.id (.errR e))])

/-- Go `Actor.processCancelCommand`: run the cancel callback and delete the
entry (no reply is sent). -/
def processCancelCommandA (origin : ActorRef) (cid : Nat) (a : ActorCore) :
    ActorCore × List Event :=
  let pid : PromiseId := ⟨origin, cid⟩
  match alFind pid a.activePromises with
  | none => (a, [])
  | some cb =>
    let r := runCancelCB cb a
    ({ r.1 with activePromises := alErase pid r.1.activePromises }, r.2)

/-- Go `Actor.Delegate`. -/
def DelegateA (dest : ActorRef) (a : ActorCore) : ActorCore × List Event :=
  match a.currentCommand with
  | none => (a, [])
  | some cmd =>
    if alContains cmd.pid a.activePromises then
      let r := SendRequestA dest cmd.data (.delegateProxy cmd.pid) a
      let cb := match r.2.1 with
        | some cid => CancelCB.cancelInflight cid
        | none => CancelCB.nilCB
      ({ r.1 with
          activePromises := alInsert cmd.pid cb r.1.activePromises,
          currentCommand := none },
       r.2.2)
    else
      ({ a with currentCommand := none }, [.enq dest (.command cmd)])

/-- The `Response` visitor (`actorResponseVisitor`), modelled from the
spec: plain value → reply; promise → register active promise and
invalidate; delegate → `Delegate`. -/
def visitResponse (r : ResponseKind) (a : ActorCore) : ActorCore × List Event :=
  match r with
  | .value d => replyA a (.val d)
  | .promise tok =>
    match a.currentCommand with
    | some cmd =>
      ({ a with
          activePromises := alInsert cmd.pid (.external tok) a.activePromises,
          currentCommand := none }, [])
    | none => (a, [])
  | .delegate dest => DelegateA dest a

/-- Go `Actor.processCommand` (non-panicking executions). -/
def processCommandA (env : Env) (cmd : CommandMsg) (a : ActorCore) :
    ActorCore × List Event :=
  let a := { a with currentCommand := some cmd }
  if cmd.data = .getInfo then replyA a .infoTable
  else
    match env.runCommand cmd.data a.filterCount with
    | (_, some e) => replyWithErrorA a (some e)
    | (none, none) => replyA a .nilReply
    | (some r, none) => visitResponse r a

/-- Go `Actor.processReissuedCommand` (non-panicking executions). -/
def processReissuedCommandA (env : Env) (rc : ResumedCommand) (a : ActorCore) :
    ActorCore × List Event :=
  let a := { a with
    currentCommand := some rc.cmd,
    activePromises := alErase rc.cmd.pid a.activePromises }
  match env.runCommand rc.cmd.data rc.filterIndex with
  | (_, some e) => replyWithErrorA a (some e)
  | (none, none) => replyA a .nilReply
  | (some r, none) => visitResponse r a

/-- Loop body of `processReissuedCommands`. -/
def processReissuedLoop (env : Env) (l : List ResumedCommand) (a : ActorCore)
    (acc : List Event) : ActorCore × List Event :=
  match l with
  | [] => (a, acc)
  | rc :: rest =>
    if rc.valid then
      let r := processReissuedCommandA env rc a
      processReissuedLoop env rest r.1 (acc ++ r.2)
    else processReissuedLoop env rest a acc

/-- Go `Actor.processReissuedCommands`: drain the reissued-command queue,
skipping invalidated entries. -/
def processReissuedA (env : Env) (a : ActorCore) : ActorCore × List Event :=
  processReissuedLoop env a.reissued { a with reissued := [] } []

end ActorsModel

namespace ActorsModel

/-! ## Stream handling -/

/-- Pop the next `Process` outcome of the consumer's user object. -/
def inputProcessStep (inp : StreamInput) : Option Err × StreamInput :=
  match inp.procResults with
  | [] => (none, inp)
  | r :: rest => (r, { inp with procResults := rest })

/-- Pop the next `FillData` outcome of the producer's user object. -/
def outFillStep (out : StreamOut) : (Option Payload × Option Err) × StreamOut :=
  match out.fillResults with
  | [] => ((none, none), out)
  | r :: rest => (r, { out with fillResults := rest })

/-- Modelled from the spec: `streamOutputBase.CloseStream` /
`closeStreamNow` mark the output closing and record the close error. -/
def closeStreamMark (e : Option Err) (out : StreamOut) : StreamOut :=
  { out with isStreamClosing := true, closeError := e }

/-- Go `Actor.closeInput`: notify the source (an enqueue to the Go nil
service when the source is still unknown), drop the input, fire its
`closed` callback. -/
def closeInputA (inp : StreamInput) (e : Option Err) (a : ActorCore) :
    ActorCore × List Event :=
  let ev := match inp.source with
    | some s => [Event.enq s (.downstreamStopped ⟨inp.sid, a.refl⟩ e)]
    | none => [Event.enqNil (.downstreamStopped ⟨inp.sid, a.refl⟩ e)]
  ({ a with streamInputs := alErase inp.sid a.streamInputs },
   ev ++ [.inputClosed inp.sid e])

/-- Go `Actor.processData` (non-panicking executions). -/
def processDataA (id : SourceId) (d : Option Payload) (a : ActorCore) :
    ActorCore × List Event :=
  match alFind id.sid a.streamInputs with
  | none => (a, [])
  | some inp =>
    let inp := { inp with source := some id.source }
    let pr := inputProcessStep inp
    let a2 := { a with streamInputs := alInsert id.sid pr.2 a.streamInputs }
    let ev0 := [Event.inputDataReceived id.sid, Event.inputProcessed id.sid d]
    match pr.1 with
    | some perr =>
      let r := closeInputA pr.2 perr a2
      (r.1, ev0 ++ r.2)
    | none => (a2, ev0 ++ [.inputRequestNext id.sid])

/-- Go `Actor.processUpstreamStopped`. -/
def processUpstreamStoppedA (id : SourceId) (e : Option Err) (a : ActorCore) :
    ActorCore × List Event :=
  match alFind id.sid a.streamInputs with
  | none => (a, [])
  | some _ =>
    ({ a with streamInputs := alErase id.sid a.streamInputs },
     [.inputClosed id.sid e])

/-- Go `Actor.closeOutput`: notify the consumer, drop the output, fire its
`streamClosed` callback. -/
def closeOutputA (out : StreamOut) (a : ActorCore) : ActorCore × List Event :=
  ({ a with streamOutputs := alErase out.outStreamId a.streamOutputs },
   [.enq out.outStreamId.destination
      (.upstreamStopped ⟨out.outStreamId.sid, a.refl⟩ out.closeError),
    .outStreamClosed out.outStreamId out.closeError])

/-- Go `Actor.processStreamRequest` (non-panicking executions). -/
def processStreamRequestA (r : StreamRequestMsg) (a : ActorCore) :
    ActorCore × List Event :=
  match alFind r.id a.streamOutputs with
  | none => (a, [])
  | some info =>
    let ev0 := [Event.outAcknowledged info.output.outStreamId]
    let fr := outFillStep info.output
    match fr.1.2 with
    | some fe =>
      let cr := closeOutputA (closeStreamMark (some fe) fr.2) a
      (cr.1, ev0 ++ cr.2)
    | none =>
      match fr.1.1 with
      | none =>
        let out3 :=
          if fr.2.shouldCloseWhenActorCloses && a.state ≠ .running then
            closeStreamMark a.quitError fr.2
          else fr.2
        if out3.isStreamClosing then
          let cr := closeOutputA out3 a
          (cr.1, ev0 ++ cr.2)
        else
          ({ a with streamOutputs := alInsert r.id ⟨out3, r⟩ a.streamOutputs },
           ev0)
      | some d =>
        ({ a with
            streamOutputs :=
              alInsert r.id ⟨fr.2, info.dataRequest⟩ a.streamOutputs },
         ev0 ++ [.enq r.id.destination (.streamReply ⟨r.id.sid, a.refl⟩ (some d))])

/-- Go `Actor.processStreamAcknowledged` (non-panicking executions). -/
def processStreamAckA (id : OutputId) (a : ActorCore) : ActorCore × List Event :=
  match alFind id a.streamOutputs with
  | none => (a, [])
  | some info =>
    let ev0 := [Event.outAcknowledged info.output.outStreamId]
    if info.output.isStreamClosing then
      let cr := closeOutputA info.output a
      (cr.1, ev0 ++ cr.2)
    else (a, ev0)

/-- Go `Actor.processDownstreamStopped`. -/
def processDownstreamStoppedA (id : OutputId) (e : Option Err) (a : ActorCore) :
    ActorCore × List Event :=
  match alFind id a.streamOutputs with
  | none => (a, [])
  | some info =>
    ({ a with streamOutputs := alErase info.output.outStreamId a.streamOutputs },
     [.outStreamClosed info.output.outStreamId e])

/-- Go `Actor.processCloseStream`: mark the output closing with a nil
error. -/
def processCloseStreamA (id : OutputId) (a : ActorCore) : ActorCore × List Event :=
  match alFind id a.streamOutputs with
  | none => (a, [])
  | some info =>
    ({ a with
        streamOutputs :=
          alInsert id ⟨closeStreamMark none info.output, info.dataRequest⟩
            a.streamOutputs }, [])

/-- Go `Actor.flushReadyOutput` (non-panicking executions). -/
def flushReadyOutputA (info : StreamOutInfo) (a : ActorCore) :
    ActorCore × List Event :=
  let fr := outFillStep info.output
  match fr.1.2 with
  | some fe => closeOutputA (closeStreamMark (some fe) fr.2) a
  | none =>
    match fr.1.1 with
    | some d =>
      ({ a with
          streamOutputs :=
            alInsert fr.2.outStreamId ⟨fr.2, info.dataRequest⟩ a.streamOutputs },
       [.enq info.dataRequest.id.destination
          (.streamReply ⟨info.dataRequest.id.sid, a.refl⟩ (some d))])
    | none =>
      if fr.2.isStreamClosing then closeOutputA fr.2 a
      else
        ({ a with
            streamOutputs :=
              alInsert fr.2.outStreamId ⟨fr.2, info.dataRequest⟩ a.streamOutputs },
         [])

end ActorsModel

namespace ActorsModel

/-! ## Quiescence, flush barrier, dispatcher, close -/

/-- Modelled from the spec ("no active command/message processors
registered"): `actorProcessors.haveActiveProcessors`. -/
def haveActiveProcessors (a : ActorCore) : Bool :=
  a.commandProcessorCount ≠ 0 || a.messageProcessorCount ≠ 0

/-- Go `Actor.shouldQuit`. -/
def shouldQuitA (a : ActorCore) : Bool :=
  !haveActiveProcessors a && a.activePromises.isEmpty &&
    a.inflightRequests.isEmpty &&
    (!a.hasFinishedServiceProcessor || a.monitoringActors.isEmpty) &&
    a.streamInputs.isEmpty && a.streamOutputs.isEmpty

/-- Go `Actor.quitIfInactive`: Running→Quitting when quiescent, run the
exit processor while Quitting, Quitting→Closed when still quiescent. -/
def quitIfInactive (env : Env) (a : ActorCore) : ActorCore :=
  if a.state = .closed then a
  else
    let a1 := if shouldQuitA a then { a with state := .quitting } else a
    let a2 := if a1.state = .quitting then env.runExit a1 else a1
    if shouldQuitA a2 then { a2 with state := .closed } else a2

/-- Loop body of `FlushReadyOutputs`: flush every ready output that
still has an armed, valid data request. -/
def flushLoopA (l : List OutputId) (a : ActorCore) (acc : List Event) :
    ActorCore × List Event :=
  match l with
  | [] => (a, acc)
  | oid :: rest =>
    match alFind oid a.streamOutputs with
    | none => flushLoopA rest a acc
    | some info =>
      if info.dataRequest.id.isValidB then
        let r := flushReadyOutputA info a
        flushLoopA rest r.1 (acc ++ r.2)
      else flushLoopA rest a acc

/-- Go `Actor.FlushReadyOutputs` (its boolean return,
`state ≠ Closed`, is recoverable from the result). -/
def FlushReadyOutputsA (env : Env) (a : ActorCore) : ActorCore × List Event :=
  let r := flushLoopA a.readyOutputs a []
  (quitIfInactive env { r.1 with readyOutputs := [] }, r.2)

/-- Go `Actor.processServiceFinished`: run the finished-service handler
(when one is registered) and drop the peer from the monitoring set. -/
def processServiceFinishedA (peer : ActorRef) (e : Option Err) (a : ActorCore) :
    ActorCore × List Event :=
  let ev := if a.hasFinishedServiceProcessor
    then [Event.finishedService peer e] else []
  ({ a with monitoringActors := a.monitoringActors.filter (· ≠ peer) }, ev)

/-- Go `Actor.processReply`: route an `errorReply` payload to `Error`,
anything else to `Process`. -/
def processReplyA (cid : Nat) (v : RVal) (a : ActorCore) :
    ActorCore × List Event :=
  match v with
  | .errR e => inflightError cid e a
  | _ => inflightProcess cid v a

/-- Modelled from the spec: `inflightRequests.SetDestination`
(`processPreReply`) overwrites the destination override of the entry. -/
def alSetDest (cid : Nat) (d : ActorRef) (l : List (Nat × RequestInfo)) :
    List (Nat × RequestInfo) :=
  l.map (fun p =>
    if p.1 = cid then (p.1, { p.2 with destination := some d }) else p)

/-- The type switch of `Actor.processIncomingMessage`. -/
def dispatchA (env : Env) (m : Msg) (a : ActorCore) : ActorCore × List Event :=
  match m with
  | .command cmd => processCommandA env cmd a
  | .notifyClose d e => processServiceFinishedA d e a
  | .reply cid v => processReplyA cid v a
  | .preReply cid p =>
    ({ a with inflightRequests := alSetDest cid p a.inflightRequests }, [])
  | .quitM e => (QuitA e a, [])
  | .closeM => ({ a with state := .closed }, [])
  | .cancelCmd o cid => processCancelCommandA o cid a
  | .establishLink s lt =>
    ({ a with incomingLinks := alInsert s lt a.incomingLinks }, [])
  | .streamCanSend sid src => processDataA ⟨sid, src⟩ none a
  | .streamRequest r => processStreamRequestA r a
  | .streamReply id d => processDataA id d a
  | .streamAck id => processStreamAckA id a
  | .upstreamStopped id e => processUpstreamStoppedA id e a
  | .downstreamStopped id e => processDownstreamStoppedA id e a
  | .closeStreamM id => processCloseStreamA id a
  | .other tok => (a, [.messageHandled tok])

/-- Go `Actor.processIncomingMessage`: dispatch, then `FlushReadyOutputs`,
then drain reissued commands. -/
def processIncomingMessageA (env : Env) (m : Msg) (a : ActorCore) :
    ActorCore × List Event :=
  let r1 := dispatchA env m a
  let r2 := FlushReadyOutputsA env r1.1
  let r3 := processReissuedA env r2.1
  (r3.1, r1.2 ++ r2.2 ++ r3.2)

/-- The active-promise cancellation loop of `Actor.close`. -/
def closePromiseLoop (ks : List PromiseId) (a : ActorCore) (acc : List Event) :
    ActorCore × List Event :=
  match ks with
  | [] => (a, acc)
  | k :: rest =>
    let r := cancelPromiseA k (some .actorDead) a
    closePromiseLoop rest r.1 (acc ++ r.2)

/-- The inflight-request cancellation loop of `Actor.close`. -/
def closeInflightLoop (entries : List (Nat × RequestInfo)) (a : ActorCore)
    (acc : List Event) : ActorCore × List Event :=
  match entries with
  | [] => (a, acc)
  | (cid, info) :: rest =>
    let r := cancelRequestA cid info a
    closeInflightLoop rest r.1 (acc ++ r.2)

/-- Effect of `Actor.close` on one incoming link. -/
def incomingLinkEvent (selfRef : ActorRef) (qe : Option Err)
    (p : ActorRef × LinkType) : List Event :=
  match p.2 with
  | .link => [.enq p.1 (.quitM none)]
  | .depend => [.enq p.1 (.quitM none)]
  | .monitor => [.enq p.1 (.notifyClose selfRef qe)]
  | .kill => []

/-- Effect of `Actor.close` on one outgoing link. -/
def outgoingLinkEvent (p : ActorRef × LinkType) : List Event :=
  match p.2 with
  | .link => [.enq p.1 (.quitM none)]
  | .kill => [.enq p.1 (.quitM none)]
  | .monitor => []
  | .depend => []

/-- Effect of `Actor.close` on one stream input. -/
def closeInputEvent (selfRef : ActorRef) (qe : Option Err)
    (p : Nat × StreamInput) : List Event :=
  (match p.2.source with
   | some s => [Event.enq s (.downstreamStopped ⟨p.1, selfRef⟩ qe)]
   | none => []) ++ [.inputClosed p.1 qe]

/-- The stream-output teardown loop of `Actor.close`: `CloseStream` with
the quit error, then `closeOutput`. -/
def closeOutputsLoop (entries : List (OutputId × StreamOutInfo)) (a : ActorCore)
    (acc : List Event) : ActorCore × List Event :=
  match entries with
  | [] => (a, acc)
  | (_, info) :: rest =>
    let r := closeOutputA (closeStreamMark a.quitError info.output) a
    closeOutputsLoop rest r.1 (acc ++ r.2)

/-- Go `Actor.close`. -/
def closeA (a : ActorCore) : ActorCore × List Event :=
  let a0 := { a with state := ActorState.closed, messageProcessorCount := 0 }
  let r1 := closePromiseLoop (a0.activePromises.map (·.1)) a0 []
  let r2 := closeInflightLoop r1.1.inflightRequests r1.1 []
  let a2 := { r2.1 with inflightRequests := [] }
  let evIn := a2.incomingLinks.flatMap (incomingLinkEvent a2.refl a2.quitError)
  let a3 := { a2 with incomingLinks := [] }
  let evOut := a3.outgoingLinks.flatMap outgoingLinkEvent
  let a4 := { a3 with outgoingLinks := [] }
  let evInp := a4.streamInputs.flatMap (closeInputEvent a4.refl a4.quitError)
  let a5 := { a4 with streamInputs := [] }
  let r3 := closeOutputsLoop a5.streamOutputs a5 []
  let a6 := { r3.1 with streamOutputs := [], readyOutputs := [] }
  (a6, r1.2 ++ r2.2 ++ evIn ++ evOut ++ evInp ++ r3.2)

end ActorsModel

namespace ActorsModel

/-! ## Derived definitions used by the verification statements -/

/-- The quiescence condition exactly as the lifecycle invariant words it:
no command/message processors registered, inflight empty, active
promises empty, no finished-service handler or empty monitoring set,
and both stream tables empty. -/
def Quiescent (a : ActorCore) : Prop :=
  a.commandProcessorCount = 0 ∧ a.messageProcessorCount = 0 ∧
    a.inflightRequests = [] ∧ a.activePromises = [] ∧
    (a.hasFinishedServiceProcessor = false ∨ a.monitoringActors = []) ∧
    a.streamInputs = [] ∧ a.streamOutputs = []

/-- Fire the request canceller for command id `cid` `n` times in a row,
accumulating the emitted events. -/
def fireCancellerN (cid : Nat) (n : Nat) (a : ActorCore) :
    ActorCore × List Event :=
  match n with
  | 0 => (a, [])
  | n + 1 =>
    let r := requestCancellerCancel cid a
    let r2 := fireCancellerN cid n r.1
    (r2.1, r.2 ++ r2.2)

/-- Recognizer for an enqueued `cancelCommand` (used to count the
`CancelCommand`s a canceller emits). -/
def isCancelCmdEnq (ev : Event) : Bool :=
  match ev with
  | .enq _ (.cancelCmd _ _) => true
  | _ => false

/-- A freshly spawned actor with service handle `r` and no behaviour. -/
def emptyActor (r : ActorRef) : ActorCore :=
  { refl := r, commandProcessorCount := 0, messageProcessorCount := 0,
    hasFinishedServiceProcessor := false, filterCount := 0,
    nextCommandId := 0, inflightRequests := [], activePromises := [],
    incomingLinks := [], outgoingLinks := [], monitoringActors := [],
    currentStreamId := 0, streamInputs := [], streamOutputs := [],
    readyOutputs := [], reissued := [], currentCommand := none,
    state := .running, quitError := none }

/-- An environment with no user command handlers and an exit processor
that does nothing. -/
def envId : Env :=
  { runCommand := fun _ _ => (none, none), runExit := fun b => b }

/-- A Closed actor holding a recorded quit error (input of the `Quit`
after Closed counterexample). -/
def closedSampleActor : ActorCore :=
  { emptyActor 1 with state := .closed, quitError := some (.user 3) }

/-- An actor about to close with a non-nil quit error and one incoming
`Link` edge (input of the link-propagation counterexample). -/
def linkSampleActor : ActorCore :=
  { emptyActor 1 with
    incomingLinks := [(2, .link)],
    quitError := some (.user 7) }

/-- The actor obtained from a fresh actor right after one `SendRequest`
(its inflight entry has no destination override yet). -/
def sampleAfterSend : ActorCore :=
  (SendRequestA 2 (.mk 9) (.external 4) (emptyActor 1)).1

/-- An actor about to close that is linked by peer 2 and monitored by
peer 3, with a non-nil quit error. -/
def monitorLinkSampleActor : ActorCore :=
  { emptyActor 1 with
    incomingLinks := [(2, .link), (3, .monitor)],
    quitError := some (.user 7) }

/-- An actor processing command `(origin 9, id 0)` whose reply was
already deferred to an active promise. -/
def delegPromiseSampleActor : ActorCore :=
  { emptyActor 1 with
    currentCommand := some ⟨⟨9, 0⟩, .mk 5⟩,
    activePromises := [(⟨9, 0⟩, .external 2)] }

/-- An actor processing command `(origin 9, id 0)` with no active
promise for it. -/
def delegPlainSampleActor : ActorCore :=
  { emptyActor 1 with currentCommand := some ⟨⟨9, 0⟩, .mk 5⟩ }

end ActorsModel

namespace RegistryModel

/-- A one-element history stream (input of the wrong-slot-type
counterexample). -/
def sampleStream : InfoStream :=
  { buffer := [⟨"a", 1⟩], names := [], startOffset := 0,
    isAnyoneListening := true }

/-- A four-element history stream (input of the compaction witness). -/
def compactSampleStream : InfoStream :=
  { buffer := [⟨"a", 1⟩, ⟨"b", 2⟩, ⟨"c", 3⟩, ⟨"d", 4⟩], names := [],
    startOffset := 0, isAnyoneListening := true }

end RegistryModel

namespace ActorsModel

/-! ## Helper lemmas -/

theorem mem_alErase {κ α : Type} [DecidableEq κ] {k : κ} {l : List (κ × α)}
    {q : κ × α} (h : q ∈ alErase k l) : q ∈ l ∧ q.1 ≠ k := by
  simpa [alErase, List.mem_filter] using h

theorem alFind_none_forall {κ α : Type} [DecidableEq κ] {k : κ}
    {l : List (κ × α)} (h : alFind k l = none) : ∀ q ∈ l, q.1 ≠ k := by
  intro q hq
  have h2 := Option.map_eq_none'.mp h
  rw [List.find?_eq_none] at h2
  simpa using h2 q hq

theorem alFind_erase_self {κ α : Type} [DecidableEq κ] (k : κ)
    (l : List (κ × α)) : alFind k (alErase k l) = none := by
  unfold alFind alErase
  rw [Option.map_eq_none', List.find?_eq_none]
  intro q hq
  simpa using (List.mem_filter.mp hq).2

theorem runRProcError_shape (p : RProc) (e : Option Err) (a : ActorCore) :
    ∃ ap, (runRProcError p e a).1 = { a with activePromises := ap } ∧
      ∀ q ∈ ap, q ∈ a.activePromises := by
  cases p with
  | external tok => exact ⟨a.activePromises, rfl, fun q hq => hq⟩
  | delegateProxy pid =>
    exact ⟨alErase pid a.activePromises, rfl,
      fun q hq => (mem_alErase hq).1⟩

theorem cancelRequestA_shape (cid : Nat) (info : RequestInfo) (a : ActorCore) :
    ∃ ap, (cancelRequestA cid info a).1 = { a with activePromises := ap } ∧
      ∀ q ∈ ap, q ∈ a.activePromises :=
  runRProcError_shape info.processor (some .cancelled) a

theorem requestCancellerCancel_shape (cid : Nat) (a : ActorCore) :
    ∃ ap il, (requestCancellerCancel cid a).1 =
      { a with activePromises := ap, inflightRequests := il } ∧
      ∀ q ∈ ap, q ∈ a.activePromises := by
  unfold requestCancellerCancel
  cases h : alFind cid a.inflightRequests with
  | none => exact ⟨a.activePromises, a.inflightRequests, rfl, fun q hq => hq⟩
  | some info =>
    obtain ⟨ap, hap, hsub⟩ := cancelRequestA_shape cid info a
    refine ⟨ap, alErase cid a.inflightRequests, ?_, hsub⟩
    simp [hap]

theorem runCancelCB_shape (cb : CancelCB) (a : ActorCore) :
    ∃ ap il, (runCancelCB cb a).1 =
      { a with activePromises := ap, inflightRequests := il } ∧
      ∀ q ∈ ap, q ∈ a.activePromises := by
  cases cb with
  | external tok => exact ⟨a.activePromises, a.inflightRequests, rfl, fun q hq => hq⟩
  | invalidateTok => exact ⟨a.activePromises, a.inflightRequests, rfl, fun q hq => hq⟩
  | nilCB => exact ⟨a.activePromises, a.inflightRequests, rfl, fun q hq => hq⟩
  | cancelInflight cid => exact requestCancellerCancel_shape cid a

theorem cancelPromiseA_shape (k : PromiseId) (e : Option Err) (a : ActorCore) :
    ∃ ap il, (cancelPromiseA k e a).1 =
      { a with activePromises := ap, inflightRequests := il } ∧
      ∀ q ∈ ap, q ∈ a.activePromises ∧ q.1 ≠ k := by
  unfold cancelPromiseA
  cases h : alFind k a.activePromises with
  | none =>
    exact ⟨a.activePromises, a.inflightRequests, rfl,
      fun q hq => ⟨hq, alFind_none_forall h q hq⟩⟩
  | some cb =>
    obtain ⟨ap, il, hshape, hsub⟩ := runCancelCB_shape cb a
    refine ⟨alErase k ap, il, ?_, fun q hq => ?_⟩
    · simp [hshape]
    · obtain ⟨hq1, hq2⟩ := mem_alErase hq
      exact ⟨hsub q hq1, hq2⟩

theorem closePromiseLoop_shape (ks : List PromiseId) (a : ActorCore)
    (acc : List Event) :
    ∃ ap il, (closePromiseLoop ks a acc).1 =
      { a with activePromises := ap, inflightRequests := il } ∧
      ∀ q ∈ ap, q ∈ a.activePromises ∧ q.1 ∉ ks := by
  induction ks generalizing a acc with
  | nil => exact ⟨a.activePromises, a.inflightRequests, rfl,
      fun q hq => ⟨hq, by simp⟩⟩
  | cons k rest ih =>
    obtain ⟨ap1, il1, hshape1, hsub1⟩ := cancelPromiseA_shape k (some .actorDead) a
    obtain ⟨ap2, il2, hshape2, hsub2⟩ :=
      ih (cancelPromiseA k (some .actorDead) a).1 (acc ++ (cancelPromiseA k (some .actorDead) a).2)
    refine ⟨ap2, il2, ?_, fun q hq => ?_⟩
    · rw [closePromiseLoop, hshape2, hshape1]
    · have h2 := hsub2 q hq
      rw [hshape1] at h2
      simp only at h2
      obtain ⟨h3, h4⟩ := hsub1 q h2.1
      refine ⟨h3, ?_⟩
      simp only [List.mem_cons, not_or]
      exact ⟨h4, h2.2⟩

theorem closeInflightLoop_shape (entries : List (Nat × RequestInfo))
    (a : ActorCore) (acc : List Event) :
    ∃ ap, (closeInflightLoop entries a acc).1 =
      { a with activePromises := ap } ∧
      ∀ q ∈ ap, q ∈ a.activePromises := by
  induction entries generalizing a acc with
  | nil => exact ⟨a.activePromises, rfl, fun q hq => hq⟩
  | cons p rest ih =>
    obtain ⟨ap1, hshape1, hsub1⟩ := cancelRequestA_shape p.1 p.2 a
    obtain ⟨ap2, hshape2, hsub2⟩ :=
      ih (cancelRequestA p.1 p.2 a).1 (acc ++ (cancelRequestA p.1 p.2 a).2)
    refine ⟨ap2, ?_, fun q hq => ?_⟩
    · rw [closeInflightLoop, hshape2, hshape1]
    · have h2 := hsub2 q hq
      rw [hshape1] at h2
      exact hsub1 q h2
  
theorem closeOutputsLoop_shape (entries : List (OutputId × StreamOutInfo))
    (a : ActorCore) (acc : List Event) :
    ∃ so, (closeOutputsLoop entries a acc).1 = { a with streamOutputs := so } := by
  induction entries generalizing a acc with
  | nil => exact ⟨a.streamOutputs, rfl⟩
  | cons p rest ih =>
    obtain ⟨so2, hshape2⟩ :=
      ih (closeOutputA (closeStreamMark a.quitError p.2.output) a).1
        (acc ++ (closeOutputA (closeStreamMark a.quitError p.2.output) a).2)
    have hco : (closeOutputA (closeStreamMark a.quitError p.2.output) a).1 =
        { a with
          streamOutputs :=
            alErase (closeStreamMark a.quitError p.2.output).outStreamId
              a.streamOutputs } := rfl
    refine ⟨so2, ?_⟩
    rw [closeOutputsLoop, hshape2, hco]

end ActorsModel

namespace ActorsModel

/-- Characterization of `Actor.close`: the resulting actor state, and
membership of the link/stream notification events in the emitted event
list. -/
theorem closeA_spec (a : ActorCore) :
    (closeA a).1 = { a with
      state := .closed, messageProcessorCount := 0,
      activePromises := [], inflightRequests := [], incomingLinks := [],
      outgoingLinks := [], streamInputs := [], streamOutputs := [],
      readyOutputs := [] } ∧
    ∀ ev, (ev ∈ a.incomingLinks.flatMap (incomingLinkEvent a.refl a.quitError) ∨
           ev ∈ a.outgoingLinks.flatMap outgoingLinkEvent ∨
           ev ∈ a.streamInputs.flatMap (closeInputEvent a.refl a.quitError)) →
      ev ∈ (closeA a).2 := by
  obtain ⟨ap1, il1, hsh1, hmem1⟩ :=
    closePromiseLoop_shape (a.activePromises.map (·.1))
      { a with state := ActorState.closed, messageProcessorCount := 0 } []
  have hap1 : ap1 = [] := by
    rw [List.eq_nil_iff_forall_not_mem]
    intro q hq
    obtain ⟨hm, hk⟩ := hmem1 q hq
    exact hk (List.mem_map_of_mem _ hm)
  subst hap1
  obtain ⟨ap2, hsh2, hmem2⟩ :=
    closeInflightLoop_shape il1
      { a with state := ActorState.closed, messageProcessorCount := 0,
               activePromises := [], inflightRequests := il1 } []
  have hap2 : ap2 = [] := by
    rw [List.eq_nil_iff_forall_not_mem]
    intro q hq
    have h := hmem2 q hq
    simp at h
  subst hap2
  obtain ⟨so3, hsh3⟩ :=
    closeOutputsLoop_shape a.streamOutputs
      { a with state := ActorState.closed, messageProcessorCount := 0,
               activePromises := [], inflightRequests := [],
               incomingLinks := [], outgoingLinks := [],
               streamInputs := [] } []
  constructor
  · simp only [closeA, hsh1, hsh2, hsh3]
  · intro ev hev
    simp only [closeA, hsh1, hsh2, hsh3, List.mem_append]
    tauto

/-- C2: after the `close()` sequence, the inflight-request table, the
active-promise table, both stream tables, both link maps and the
ready-output set of the actor are empty, and its state is Closed. -/
theorem close_clears_all_tables (a : ActorCore) :
    (closeA a).1.inflightRequests = [] ∧ (closeA a).1.activePromises = [] ∧
    (closeA a).1.streamInputs = [] ∧ (closeA a).1.streamOutputs = [] ∧
    (closeA a).1.incomingLinks = [] ∧ (closeA a).1.outgoingLinks = [] ∧
    (closeA a).1.readyOutputs = [] ∧ (closeA a).1.state = .closed := by
  have h := (closeA_spec a).1
  rw [h]
  exact ⟨rfl, rfl, rfl, rfl, rfl, rfl, rfl, rfl⟩

end ActorsModel

namespace ActorsModel

/-- C3 counterexample: an actor closing with quit error `user 7` and one
incoming `Link` edge to peer 2 emits only `Quit(nil)` to that peer, and
processing `Quit(nil)` sets the peer's quit error to nil — not to the
closing actor's error, contradicting the claim that the peer's
`quitError` becomes `E`. -/
theorem close_link_quit_error_counterexample :
    linkSampleActor.quitError = some (.user 7) ∧
    (closeA linkSampleActor).2 = [Event.enq 2 (.quitM none)] ∧
    (dispatchA envId (.quitM none) (emptyActor 2)).1.quitError = none ∧
    (none : Option Err) ≠ some (.user 7) := by
  refine ⟨rfl, by decide, rfl, by decide⟩

/-- C3 (amended): when an actor `A` closes with quit error `E`, every
peer holding an incoming `Link` or `Depend` edge is enqueued a `Quit`
carrying `nil` (so processing it sets the peer's quit error to nil,
regardless of `E`), while every monitoring peer is enqueued
`NotifyClose{A, E}`, whose processing runs the peer's finished-service
processor with `(A, E)` and removes `A` from its monitoring set. -/
theorem close_link_propagation (a : ActorCore) (peer : ActorRef)
    (E : Option Err) (hE : a.quitError = E) :
    (((peer, LinkType.link) ∈ a.incomingLinks ∨
        (peer, LinkType.depend) ∈ a.incomingLinks) →
      Event.enq peer (.quitM none) ∈ (closeA a).2) ∧
    ((peer, LinkType.monitor) ∈ a.incomingLinks →
      Event.enq peer (.notifyClose a.refl E) ∈ (closeA a).2) ∧
    (∀ env b e, (dispatchA env (.quitM e) b).1.quitError = e ∧
      (dispatchA env (.quitM e) b).1.state = .quitting) ∧
    (∀ env b, b.hasFinishedServiceProcessor = true →
      Event.finishedService a.refl E ∈
        (dispatchA env (.notifyClose a.refl E) b).2 ∧
      (dispatchA env (.notifyClose a.refl E) b).1.monitoringActors =
        b.monitoringActors.filter (· ≠ a.refl)) := by
  subst hE
  refine ⟨?_, ?_, ?_, ?_⟩
  · intro h
    refine (closeA_spec a).2 _ (Or.inl (List.mem_flatMap.mpr ?_))
    rcases h with h | h
    · exact ⟨(peer, .link), h, by simp [incomingLinkEvent]⟩
    · exact ⟨(peer, .depend), h, by simp [incomingLinkEvent]⟩
  · intro h
    exact (closeA_spec a).2 _ (Or.inl (List.mem_flatMap.mpr
      ⟨(peer, .monitor), h, by simp [incomingLinkEvent]⟩))
  · intro env b e
    exact ⟨rfl, rfl⟩
  · intro env b hb
    constructor
    · simp [dispatchA, processServiceFinishedA, hb]
    · simp [dispatchA, processServiceFinishedA]

/-- Witness for `close_link_propagation` at a concrete closing actor
with one linked and one monitoring peer. -/
theorem close_link_propagation_witness :
    Event.enq 2 (.quitM none) ∈ (closeA monitorLinkSampleActor).2 ∧
    Event.enq 3 (.notifyClose 1 (some (.user 7))) ∈
      (closeA monitorLinkSampleActor).2 ∧
    (dispatchA envId (.quitM none) (emptyActor 2)).1.quitError = none ∧
    Event.finishedService 1 (some (.user 7)) ∈
      (dispatchA envId (.notifyClose 1 (some (.user 7)))
        { emptyActor 3 with hasFinishedServiceProcessor := true }).2 := by
  have h := close_link_propagation monitorLinkSampleActor 2 (some (.user 7)) rfl
  have h2 := close_link_propagation monitorLinkSampleActor 3 (some (.user 7)) rfl
  refine ⟨h.1 (Or.inl (by decide)), ?_, (h.2.2.1 envId (emptyActor 2) none).1, ?_⟩
  · exact h2.2.1 (by decide)
  · exact (h2.2.2.2 envId { emptyActor 3 with hasFinishedServiceProcessor := true }
      rfl).1

end ActorsModel

namespace ActorsModel

/-- C5 counterexample: invoking `Quit` on a Closed actor is not a
no-op — the state becomes Quitting (not Closed) and the stored quit
error is overwritten by the new one. -/
theorem quit_on_closed_counterexample :
    closedSampleActor.state = .closed ∧
    closedSampleActor.quitError = some (.user 3) ∧
    ¬ ((QuitA (some (.user 5)) closedSampleActor).state = .closed ∧
       (QuitA (some (.user 5)) closedSampleActor).quitError =
         some (.user 3)) := by
  refine ⟨rfl, rfl, ?_⟩
  intro h
  exact absurd h.1 (by decide)

/-- C5 (amended): `Quit` is unconditional — for any actor, including one
that is already Closed, it sets the state to Quitting, stores the given
error, and clears the message processors. -/
theorem quit_unconditional (e : Option Err) (a : ActorCore) :
    (QuitA e a).state = .quitting ∧ (QuitA e a).quitError = e ∧
    (QuitA e a).messageProcessorCount = 0 ∧
    (QuitA e a).commandProcessorCount = a.commandProcessorCount ∧
    (QuitA e a).inflightRequests = a.inflightRequests ∧
    (QuitA e a).activePromises = a.activePromises :=
  ⟨rfl, rfl, rfl, rfl, rfl, rfl⟩

/-- C7: `SendRequest` on a Closed actor returns the nil canceller and
has no effect; on any non-Closed actor it records the inflight entry
under the fresh command id, enqueues the command to the destination,
and returns a non-nil canceller holding that id. -/
theorem sendRequest_closed_nil_canceller (a : ActorCore) (dest : ActorRef)
    (p : Payload) (proc : RProc) :
    (a.state = .closed → SendRequestA dest p proc a = (a, none, [])) ∧
    (a.state ≠ .closed →
      SendRequestA dest p proc a =
        ({ a with
            inflightRequests :=
              alInsert a.nextCommandId ⟨none, proc⟩ a.inflightRequests,
            nextCommandId := a.nextCommandId + 1 },
         some a.nextCommandId,
         [.enq dest (.command ⟨⟨a.refl, a.nextCommandId⟩, p⟩)])) := by
  constructor
  · intro h
    simp [SendRequestA, h]
  · intro h
    simp [SendRequestA, h]

/-- Witness for `sendRequest_closed_nil_canceller`: a Closed actor gets
the nil canceller, a Running actor a non-nil one. -/
theorem sendRequest_closed_nil_canceller_witness :
    SendRequestA 2 (.mk 5) (.external 0) closedSampleActor =
      (closedSampleActor, none, []) ∧
    (SendRequestA 2 (.mk 9) (.external 4) (emptyActor 1)).2.1 = some 0 := by
  refine ⟨?_, ?_⟩
  · exact (sendRequest_closed_nil_canceller closedSampleActor 2 (.mk 5)
      (.external 0)).1 rfl
  · rw [(sendRequest_closed_nil_canceller (emptyActor 1) 2 (.mk 9)
      (.external 4)).2 (by decide)]
    rfl

end ActorsModel

namespace ActorsModel

theorem runRProcError_inflight (p : RProc) (e : Option Err) (a : ActorCore) :
    (runRProcError p e a).1.inflightRequests = a.inflightRequests := by
  cases p <;> rfl

theorem requestCancellerCancel_noop (cid : Nat) (a : ActorCore)
    (h : alFind cid a.inflightRequests = none) :
    requestCancellerCancel cid a = (a, []) := by
  simp [requestCancellerCancel, h]

theorem fireCancellerN_noop (cid : Nat) (n : Nat) (a : ActorCore)
    (h : alFind cid a.inflightRequests = none) :
    fireCancellerN cid n a = (a, []) := by
  induction n with
  | zero => rfl
  | succ n ih => simp [fireCancellerN, requestCancellerCancel_noop cid a h, ih]

theorem requestCancellerCancel_removed (cid : Nat) (a : ActorCore)
    (info : RequestInfo) (hfind : alFind cid a.inflightRequests = some info) :
    alFind cid (requestCancellerCancel cid a).1.inflightRequests = none := by
  simp only [requestCancellerCancel, hfind]
  have h2 : (cancelRequestA cid info a).1.inflightRequests =
      a.inflightRequests := runRProcError_inflight _ _ _
  show alFind cid (alErase cid (cancelRequestA cid info a).1.inflightRequests) = none
  rw [h2]
  exact alFind_erase_self cid a.inflightRequests

/-- C4 counterexample: firing the canceller of a fresh request (whose
inflight entry has no destination override, `preReply` never having
arrived) emits no `CancelCommand` at all — only the local
`Error(Cancelled)` — contradicting "enqueues exactly one
CancelCommand". -/
theorem canceller_no_destination_counterexample :
    alFind 0 sampleAfterSend.inflightRequests =
      some ⟨none, .external 4⟩ ∧
    (requestCancellerCancel 0 sampleAfterSend).2 =
      [.procError 4 (some .cancelled)] ∧
    List.countP isCancelCmdEnq (requestCancellerCancel 0 sampleAfterSend).2 = 0 ∧
    (0 : Nat) ≠ 1 := by
  exact ⟨by decide, by decide, by decide, by decide⟩

/-- C4 (amended): the canceller returned by `SendRequest` is fire-once
and idempotent — firing it `n ≥ 1` times equals firing it once; one
firing calls `replyProcessor.Error(Cancelled)` exactly once, removes the
inflight entry, and enqueues exactly one `CancelCommand` to the entry's
current destination if a destination override is set (and none
otherwise). -/
theorem canceller_fire_once_idempotent (a : ActorCore) (cid : Nat)
    (info : RequestInfo) (tok : Nat)
    (hfind : alFind cid a.inflightRequests = some info)
    (hproc : info.processor = .external tok) :
    (∀ n, 1 ≤ n → fireCancellerN cid n a = fireCancellerN cid 1 a) ∧
    ((requestCancellerCancel cid a).2 =
      (match info.destination with
       | some d => [Event.enq d (.cancelCmd a.refl cid)]
       | none => []) ++ [.procError tok (some .cancelled)]) ∧
    ((requestCancellerCancel cid a).2.count
      (Event.procError tok (some .cancelled)) = 1) ∧
    (List.countP isCancelCmdEnq (requestCancellerCancel cid a).2 =
      if info.destination.isSome then 1 else 0) ∧
    alFind cid (requestCancellerCancel cid a).1.inflightRequests = none := by
  have hrm := requestCancellerCancel_removed cid a info hfind
  have hev : (requestCancellerCancel cid a).2 =
      (match info.destination with
       | some d => [Event.enq d (.cancelCmd a.refl cid)]
       | none => []) ++ [.procError tok (some .cancelled)] := by
    cases hd : info.destination <;>
      simp [requestCancellerCancel, hfind, cancelRequestA, hproc,
        runRProcError, hd]
  refine ⟨?_, hev, ?_, ?_, hrm⟩
  · intro n hn
    obtain ⟨m, rfl⟩ : ∃ m, n = m + 1 := ⟨n - 1, by omega⟩
    show (let r := requestCancellerCancel cid a
          let r2 := fireCancellerN cid m r.1
          (r2.1, r.2 ++ r2.2)) =
      (let r := requestCancellerCancel cid a
       let r2 := fireCancellerN cid 0 r.1
       (r2.1, r.2 ++ r2.2))
    simp only [fireCancellerN_noop cid m _ hrm, fireCancellerN]
  · rw [hev]
    cases hd : info.destination <;> simp [List.count_cons, List.count_nil]
  · rw [hev]
    cases hd : info.destination <;>
      simp [isCancelCmdEnq, List.countP_cons, List.countP_nil]

/-- Witness for `canceller_fire_once_idempotent` on a concrete fresh
request. -/
theorem canceller_fire_once_idempotent_witness :
    fireCancellerN 0 3 sampleAfterSend = fireCancellerN 0 1 sampleAfterSend ∧
    (requestCancellerCancel 0 sampleAfterSend).2.count
      (Event.procError 4 (some .cancelled)) = 1 ∧
    alFind 0 (requestCancellerCancel 0 sampleAfterSend).1.inflightRequests =
      none := by
  have h := canceller_fire_once_idempotent sampleAfterSend 0
    ⟨none, .external 4⟩ 4 (by decide) rfl
  exact ⟨h.1 3 (by omega), h.2.2.1, h.2.2.2.2⟩

end ActorsModel

namespace ActorsModel

theorem shouldQuit_iff (b : ActorCore) : shouldQuitA b = true ↔ Quiescent b := by
  simp [shouldQuitA, haveActiveProcessors, Quiescent, List.isEmpty_iff]
  tauto

theorem quiesce_iff (env : Env) (a : ActorCore)
    (hrun : a.state = .running)
    (hexit : ∀ b, (env.runExit b).state = b.state) :
    (quitIfInactive env a).state = .closed ↔
      (shouldQuitA a = true ∧
        shouldQuitA (env.runExit { a with state := .quitting }) = true) := by
  simp only [quitIfInactive, hrun]
  by_cases h1 : shouldQuitA a
  · simp only [h1, if_true]
    by_cases h2 : shouldQuitA (env.runExit { a with state := ActorState.quitting })
    · simp [h2]
    · simp [h2, hexit]
  · simp [h1, hrun]

/-- C1: a Running actor completes the quiescence transition
(Running→Quitting, exit processor, Quitting→Closed) in `quitIfInactive`
iff the `shouldQuit` predicate holds before and still holds after the
exit processor ran, where `shouldQuit` is exactly the conjunction: no
command/message processors registered, empty inflight table, empty
active-promise table, no finished-service handler or empty monitoring
set, and both stream tables empty; moreover `FlushReadyOutputs` ends by
evaluating the predicate (via `quitIfInactive`), and
`processIncomingMessage` runs `FlushReadyOutputs` after dispatching
every message. -/
theorem actor_quiescence_characterization (env : Env) (a : ActorCore)
    (hrun : a.state = .running)
    (hexit : ∀ b, (env.runExit b).state = b.state) :
    ((quitIfInactive env a).state = .closed ↔
      (shouldQuitA a = true ∧
        shouldQuitA (env.runExit { a with state := .quitting }) = true)) ∧
    (∀ b : ActorCore, shouldQuitA b = true ↔ Quiescent b) ∧
    (∀ b, FlushReadyOutputsA env b =
      (quitIfInactive env
        { (flushLoopA b.readyOutputs b []).1 with readyOutputs := [] },
       (flushLoopA b.readyOutputs b []).2)) ∧
    (∀ m b, processIncomingMessageA env m b =
      ((processReissuedA env (FlushReadyOutputsA env (dispatchA env m b).1).1).1,
       (dispatchA env m b).2 ++
         (FlushReadyOutputsA env (dispatchA env m b).1).2 ++
         (processReissuedA env (FlushReadyOutputsA env (dispatchA env m b).1).1).2)) := by
  refine ⟨quiesce_iff env a hrun hexit, shouldQuit_iff, ?_, ?_⟩
  · intro b
    rfl
  · intro m b
    rfl

/-- Witness for `actor_quiescence_characterization`: a fresh actor with
no registered behaviour and a trivial exit processor quiesces. -/
theorem actor_quiescence_characterization_witness :
    (quitIfInactive envId (emptyActor 1)).state = .closed ∧
    shouldQuitA (emptyActor 1) = true := by
  have h := actor_quiescence_characterization envId (emptyActor 1) rfl
    (fun b => rfl)
  exact ⟨h.1.mpr ⟨by decide, by decide⟩, by decide⟩

end ActorsModel

namespace ActorsModel

/-- C6: `Delegate(dest)` while processing a command forwards the raw
command message unchanged (original promise id, hence sender, preserved)
when the command's promise id is not in the active-promise table; when
it is, the delegator instead issues its own `SendRequest` to `dest`
with a proxy reply processor and re-registers the promise with the
sub-request's canceller; the proxy processor, on the delegatee's reply
or error, replies the original promise with that result, and a
requester holding an external reply processor has it receive the
forwarded value. -/
theorem delegate_semantics (a : ActorCore) (dest : ActorRef)
    (cmd : CommandMsg) (hcur : a.currentCommand = some cmd) :
    (alContains cmd.pid a.activePromises = false →
      DelegateA dest a =
        ({ a with currentCommand := none }, [.enq dest (.command cmd)])) ∧
    (alContains cmd.pid a.activePromises = true → a.state ≠ .closed →
      DelegateA dest a =
        ({ a with
            inflightRequests := alInsert a.nextCommandId
              ⟨none, .delegateProxy cmd.pid⟩ a.inflightRequests,
            nextCommandId := a.nextCommandId + 1,
            activePromises := alInsert cmd.pid
              (.cancelInflight a.nextCommandId) a.activePromises,
            currentCommand := none },
         [.enq dest (.command ⟨⟨a.refl, a.nextCommandId⟩, cmd.data⟩)])) ∧
    (∀ b : ActorCore, ∀ cid pid dst d,
      alFind cid b.inflightRequests = some ⟨dst, .delegateProxy pid⟩ →
      processReplyA cid (.val d) b =
        ({ b with
            inflightRequests := alErase cid b.inflightRequests,
            activePromises := alErase pid b.activePromises },
         [.enq pid.origin (.reply pid.id (.val d))])) ∧
    (∀ b : ActorCore, ∀ cid pid dst e,
      alFind cid b.inflightRequests = some ⟨dst, .delegateProxy pid⟩ →
      processReplyA cid (.errR e) b =
        ({ b with
            inflightRequests := alErase cid b.inflightRequests,
            activePromises := alErase pid b.activePromises },
         [.enq pid.origin (.reply pid.id (.errR e))])) ∧
    (∀ b : ActorCore, ∀ cid tok dst (d : Payload),
      alFind cid b.inflightRequests = some ⟨dst, .external tok⟩ →
      processReplyA cid (.val d) b =
        ({ b with inflightRequests := alErase cid b.inflightRequests },
         [.procProcess tok (.val d)])) := by
  refine ⟨?_, ?_, ?_, ?_, ?_⟩
  · intro h
    simp [DelegateA, hcur, h]
  · intro h hstate
    simp [DelegateA, hcur, h, SendRequestA, hstate]
  · intro b cid pid dst d hfind
    simp [processReplyA, inflightProcess, hfind, runRProcProcess]
  · intro b cid pid dst e hfind
    simp [processReplyA, inflightError, hfind, runRProcError]
  · intro b cid tok dst d hfind
    simp [processReplyA, inflightProcess, hfind, runRProcProcess]

/-- Witness for `delegate_semantics` at concrete delegating actors. -/
theorem delegate_semantics_witness :
    DelegateA 3 delegPlainSampleActor =
      ({ delegPlainSampleActor with currentCommand := none },
       [.enq 3 (.command ⟨⟨9, 0⟩, .mk 5⟩)]) ∧
    (DelegateA 3 delegPromiseSampleActor).2 =
      [.enq 3 (.command ⟨⟨1, 0⟩, .mk 5⟩)] ∧
    (DelegateA 3 delegPromiseSampleActor).1.activePromises =
      [(⟨9, 0⟩, .cancelInflight 0)] ∧
    (processReplyA 0 (.val (.mk 11))
      { emptyActor 1 with
        inflightRequests := [(0, ⟨none, .delegateProxy ⟨9, 0⟩⟩)],
        activePromises := [(⟨9, 0⟩, .cancelInflight 0)] }).2 =
      [.enq 9 (.reply 0 (.val (.mk 11)))] := by
  have h1 := delegate_semantics delegPlainSampleActor 3 ⟨⟨9, 0⟩, .mk 5⟩ rfl
  have h2 := delegate_semantics delegPromiseSampleActor 3 ⟨⟨9, 0⟩, .mk 5⟩ rfl
  have hB := h2.2.1 (by decide) (by decide)
  refine ⟨h1.1 (by decide), ?_, ?_, ?_⟩
  · rw [hB]
    rfl
  · rw [hB]
    decide
  · rw [h2.2.2.1
      { emptyActor 1 with
        inflightRequests := [(0, ⟨none, .delegateProxy ⟨9, 0⟩⟩)],
        activePromises := [(⟨9, 0⟩, .cancelInflight 0)] }
      0 ⟨9, 0⟩ none (.mk 11) (by decide)]

end ActorsModel

namespace RegistryModel

theorem fillData_never_wrongType (i : InfoStream) (slot : Slot)
    (off ml : Int) (s : Option Slot) (o : Int) :
    FillData i slot off ml ≠ some (s, o, some .wrongTypeRequested) := by
  cases slot with
  | array arr =>
    unfold FillData
    by_cases hg : off < i.startOffset
    · simp [hg]
    · simp only [if_neg hg]
      rcases hfa : fillArray i off (if ml = 0 then DefaultMaxLen else ml) with
        _ | ⟨_ | l, off2⟩ <;> simp [hfa]
  | single v =>
    unfold FillData
    by_cases hg : off < i.startOffset
    · simp [hg]
    · simp only [if_neg hg]
      by_cases h1 : (i.buffer.length : Int) < off - i.startOffset
      · simp [h1]
      · by_cases h2 : off - i.startOffset = (i.buffer.length : Int)
        · simp [h1, h2]
        · rcases hge : i.buffer[(off - i.startOffset).toNat]? with _ | w <;>
            simp [h1, h2, hge]
  | other =>
    unfold FillData
    by_cases hg : off < i.startOffset
    · simp [hg]
    · simp only [if_neg hg]
      rcases hfa : fillArray i off (if ml = 0 then DefaultMaxLen else ml) with
        _ | ⟨_ | l, off2⟩ <;> simp [hfa]

/-- C8 counterexample: asking the state-change stream to fill a slot of
an unexpected type (neither `*InfoArray` nor `*Info`) does not return
`WrongTypeRequested`; it fills a fresh array and returns a nil error. -/
theorem fillData_other_slot_counterexample :
    FillData sampleStream .other 0 1 =
      some (some (.array [⟨"a", 1⟩]), 1, none) ∧
    (some (ActorsModel.Err.wrongTypeRequested) : Option ActorsModel.Err) ≠
      none := by
  exact ⟨rfl, by decide⟩

/-- C8 (amended): a slot of an unexpected type is treated as a request
to fill a fresh `InfoArray` — for in-range offsets `FillData` behaves
exactly as on an array slot — and `FillData` never returns the
`WrongTypeRequested` error (that return in the source is unreachable). -/
theorem fillData_other_slot_behavior :
    (∀ (i : InfoStream) (off ml : Int), i.startOffset ≤ off →
      FillData i .other off ml = FillData i (.array []) off ml) ∧
    (∀ (i : InfoStream) (slot : Slot) (off ml : Int) (s : Option Slot)
      (o : Int),
      FillData i slot off ml ≠ some (s, o, some .wrongTypeRequested)) := by
  constructor
  · intro i off ml h
    unfold FillData
    rw [if_neg (not_lt.mpr h), if_neg (not_lt.mpr h)]
  · exact fillData_never_wrongType

/-- Witness for `fillData_other_slot_behavior` at a concrete stream. -/
theorem fillData_other_slot_behavior_witness :
    FillData sampleStream .other 0 1 = FillData sampleStream (.array []) 0 1 ∧
    FillData sampleStream (.array []) 0 1 =
      some (some (.array [⟨"a", 1⟩]), 1, none) := by
  exact ⟨fillData_other_slot_behavior.1 sampleStream 0 1 (by decide), rfl⟩

end RegistryModel

namespace LogModel

theorem severityString_none_iff (s : Severity) :
    severityString s = none ↔ s ∉ supportedSeverities := by
  constructor
  · intro h hmem
    revert h
    fin_cases hmem <;> decide
  · intro hs
    unfold severityString SeverityStringsList
    rw [Option.map_eq_none', List.find?_eq_none]
    simp only [supportedSeverities, List.mem_cons, not_or,
      List.not_mem_nil, SeverityCrash, SeverityCritical, SeverityError,
      SeverityWarning, SeverityProcessing, SeverityStatus, SeverityInfo,
      SeverityDebug] at hs
    obtain ⟨h1, h2, h3, h4, h5, h6, h7, h8, -⟩ := hs
    intro p hp
    fin_cases hp <;>
      simp only [SeverityCrash, SeverityCritical, SeverityError,
        SeverityWarning, SeverityProcessing, SeverityStatus, SeverityInfo,
        SeverityDebug, decide_eq_true_eq]
    exacts [fun hh => h1 hh.symm, fun hh => h2 hh.symm, fun hh => h3 hh.symm,
      fun hh => h4 hh.symm, fun hh => h5 hh.symm, fun hh => h6 hh.symm,
      fun hh => h7 hh.symm, fun hh => h8 hh.symm]

theorem severity_roundtrip_aux :
    ∀ s ∈ supportedSeverities,
      ∃ str, MarshalText s = .ok str ∧ UnmarshalText str = (s, none) := by
  intro s hs
  fin_cases hs
  exacts [⟨"crash", rfl, rfl⟩, ⟨"critical", rfl, rfl⟩, ⟨"error", rfl, rfl⟩,
    ⟨"warning", rfl, rfl⟩, ⟨"processing", rfl, rfl⟩, ⟨"status", rfl, rfl⟩,
    ⟨"info", rfl, rfl⟩, ⟨"debug", rfl, rfl⟩]

theorem marshal_error_iff (s : Severity) :
    MarshalText s = .error .unsupportedSeverity ↔
      s ∉ supportedSeverities := by
  constructor
  · intro h hmem
    revert h
    fin_cases hmem <;> intro h <;> exact Except.noConfusion h
  · intro hs
    have hnone := (severityString_none_iff s).mpr hs
    unfold MarshalText
    by_cases h0 : s = SeverityUnsupported
    · simp [h0]
    · simp [h0, hnone]

/-- C9: every supported severity marshals to its string and unmarshals
back to itself; `MarshalText` fails with `ErrUnsupportedSeverity`
exactly on the unsupported values; `UnmarshalText` never returns an
error and maps every unknown string to `SeverityUnsupported`. -/
theorem severity_marshal_roundtrip :
    (∀ s ∈ supportedSeverities,
      ∃ str, MarshalText s = .ok str ∧ UnmarshalText str = (s, none)) ∧
    (∀ s : Severity, MarshalText s = .error .unsupportedSeverity ↔
      s ∉ supportedSeverities) ∧
    (∀ str, (UnmarshalText str).2 = none) ∧
    (∀ str, severityByString str = none →
      (UnmarshalText str).1 = SeverityUnsupported) := by
  refine ⟨severity_roundtrip_aux, marshal_error_iff, ?_, ?_⟩
  · intro str
    cases h : severityByString str <;> simp [UnmarshalText, h]
  · intro str h
    simp [UnmarshalText, h]

/-- Witness for `severity_marshal_roundtrip` at concrete values. -/
theorem severity_marshal_roundtrip_witness :
    MarshalText SeverityWarning = .ok "warning" ∧
    UnmarshalText "warning" = (SeverityWarning, none) ∧
    MarshalText 42 = .error .unsupportedSeverity ∧
    (UnmarshalText "zzz").2 = none ∧
    (UnmarshalText "zzz").1 = SeverityUnsupported := by
  obtain ⟨str, hm, hu⟩ :=
    severity_marshal_roundtrip.1 SeverityWarning (by decide)
  have hev : MarshalText SeverityWarning = Except.ok "warning" := rfl
  have hstr : str = "warning" := Except.ok.inj (hm.symm.trans hev)
  subst hstr
  exact ⟨hm, hu, (severity_marshal_roundtrip.2.1 42).mpr (by decide),
    severity_marshal_roundtrip.2.2.1 "zzz",
    severity_marshal_roundtrip.2.2.2 "zzz" (by decide)⟩

end LogModel

namespace RegistryModel

theorem fillArray_drop (i : InfoStream) (k : Nat) (off o ml : Int)
    (hk : (k : Int) = off - i.startOffset) (hkl : k ≤ i.buffer.length)
    (ho : off ≤ o) :
    fillArray { i with buffer := i.buffer.drop k, startOffset := off } o ml =
      fillArray i o ml := by
  unfold fillArray
  dsimp only
  rw [List.length_drop]
  have hlen : ((i.buffer.length - k : Nat) : Int) =
      (i.buffer.length : Int) - (k : Int) := by omega
  rw [hlen]
  have hreal : (i.buffer.length : Int) - (k : Int) - o + off =
      (i.buffer.length : Int) - o + i.startOffset := by omega
  rw [hreal]
  have hdrop : (i.buffer.drop k).drop (o - off).toNat =
      i.buffer.drop (o - i.startOffset).toNat := by
    rw [List.drop_drop]
    congr 1
    omega
  rw [hdrop]

/-- C10: compacting the history with `LastOffsetChanged(offset)` does
not change what subscribers can read — for every offset not smaller
than the (possibly updated) start offset and every slot shape,
`FillData` returns the same result after the compaction as before. -/
theorem lastOffsetChanged_preserves_fillData (i : InfoStream) (off : Int)
    (hoff : i.startOffset ≤ off) (slot : Slot) (o ml : Int)
    (ho : (LastOffsetChanged i off).startOffset ≤ o) :
    FillData (LastOffsetChanged i off) slot o ml = FillData i slot o ml := by
  unfold LastOffsetChanged at ho ⊢
  by_cases hc : (i.buffer.length : Int) / 2 ≥ off - i.startOffset
  case neg => rw [if_neg hc]
  case pos =>
    rw [if_pos hc] at ho ⊢
    dsimp only at ho
    have hk : (((off - i.startOffset).toNat : Nat) : Int) =
        off - i.startOffset := by omega
    have hkl : (off - i.startOffset).toNat ≤ i.buffer.length := by omega
    have hoo : off ≤ o := ho
    unfold FillData
    dsimp only
    rw [if_neg (not_lt.mpr hoo), if_neg (not_lt.mpr (le_trans hoff hoo))]
    cases slot with
    | array arr =>
      rw [fillArray_drop i _ off o _ hk hkl hoo]
    | other =>
      rw [fillArray_drop i _ off o _ hk hkl hoo]
    | single v =>
      rw [List.length_drop]
      have hlen : ((i.buffer.length - (off - i.startOffset).toNat : Nat) : Int) =
          (i.buffer.length : Int) - (off - i.startOffset) := by omega
      rw [hlen]
      by_cases h1 : (i.buffer.length : Int) < o - i.startOffset
      · rw [if_pos (by omega :
          (i.buffer.length : Int) - (off - i.startOffset) < o - off),
          if_pos h1]
      · rw [if_neg (by omega :
          ¬ ((i.buffer.length : Int) - (off - i.startOffset) < o - off)),
          if_neg h1]
        by_cases h2 : o - off = (i.buffer.length : Int) - (off - i.startOffset)
        · rw [if_pos h2, if_pos (by omega :
            o - i.startOffset = (i.buffer.length : Int))]
        · rw [if_neg h2, if_neg (by omega :
            ¬ (o - i.startOffset = (i.buffer.length : Int)))]
          rw [List.getElem?_drop]
          have hidx : (off - i.startOffset).toNat + (o - off).toNat =
              (o - i.startOffset).toNat := by omega
          rw [hidx]

/-- Witness for `lastOffsetChanged_preserves_fillData` on a concrete
compacted stream. -/
theorem lastOffsetChanged_preserves_fillData_witness :
    FillData (LastOffsetChanged compactSampleStream 2) (.array []) 2 10 =
      FillData compactSampleStream (.array []) 2 10 ∧
    FillData compactSampleStream (.array []) 2 10 =
      some (some (.array [⟨"c", 3⟩, ⟨"d", 4⟩]), 4, none) ∧
    (LastOffsetChanged compactSampleStream 2).startOffset = 2 := by
  exact ⟨lastOffsetChanged_preserves_fillData compactSampleStream 2
    (by decide) (.array []) 2 10 (by decide), rfl, rfl⟩

end RegistryModel
